import Mathlib

/-!
Verification development for the `http-client` library (two implementation
variants: the plain-JavaScript `httpClient.js` and the TypeScript variant
whose implementation ships alongside `dist/httpClient.d.ts`, together with
the `AuthManager` class).

The embedding is shallow: every function below is translated from the
corresponding source function.  JavaScript strings become `String`,
`undefined`/`null`-able results become `Option`, thrown exceptions become
`Except String`, and `console.*` calls become structured `LogEvent` values
(one constructor per call site, carrying the dynamic parts of the message).
The polymorphic `HeadersInit` argument becomes the `HeadersVal` type, whose
constructors cover the three header representations the source dispatches
on (`Headers` object, array of pairs, plain object) plus the `null`,
`undefined` and primitive cases that the `typeof` chains of the source
distinguish.
-/

/-! ## String helpers

JavaScript `String.prototype.includes`, `startsWith` and `toLowerCase`
are modelled by structurally recursive functions over `String.data`. -/

/-- Boolean prefix test on character lists (`isPrefixList pat l` is true
when `pat` is a prefix of `l`). -/
def isPrefixList : List Char → List Char → Bool
  | [], _ => true
  | _ :: _, [] => false
  | p :: ps, c :: cs => p == c && isPrefixList ps cs

/-- Auxiliary substring scan: does `pat` occur in the list at any position. -/
def containsAux (pat : List Char) : List Char → Bool
  | [] => isPrefixList pat []
  | c :: rest => isPrefixList pat (c :: rest) || containsAux pat rest

/-- JavaScript `s.includes(pat)`: substring containment. -/
def strContains (s pat : String) : Bool := containsAux pat.data s.data

/-- JavaScript `s.startsWith(pat)`. -/
def strStartsWith (s pat : String) : Bool := isPrefixList pat.data s.data

/-- JavaScript `s.toLowerCase()` (ASCII case folding suffices for the
header names in scope). -/
def strLower (s : String) : String := ⟨s.data.map Char.toLower⟩

/-! ## Log events

Each constructor corresponds to one `console.info` / `console.warn` /
`console.error` call site of the source; the constructor arguments are the
dynamic parts interpolated into the message at that site. -/

/-- Severity of a console channel (`console.info`/`warn`/`error`). -/
inductive LogLevel
  | info
  | warn
  | error
deriving DecidableEq, Repr

/-- One emitted console line, identified by its call site. -/
inductive LogEvent
  /-- A per-status-code console line of `handleStatusCode` (severity,
  status code, resource URL). -/
  | statusLog (level : LogLevel) (code : Nat) (url : String)
  /-- `console.warn` for the default arm of `handleStatusCode`:
  `Unhandled status code: <code> - <statusText>. Resource: <url>`. -/
  | warnUnhandledStatus (code : Nat) (statusText url : String)
  /-- `console.warn` in `handleContentType` when the header is absent:
  `No Content-Type header found in response`. -/
  | warnNoContentType
  /-- `console.warn` in the default arm of `handleContentType`:
  `Unhandled content type: <contentType>`. -/
  | warnUnhandledContentType (contentType : String)
  /-- `console.info` at the start of `request`/`headRequest`:
  `Starting <method> request to <url>`. -/
  | infoStarting (method url : String)
  /-- `console.error` in the catch block of `request`/`headRequest`:
  `Failed <method> request to <url> ...`. -/
  | errorFailed (method url : String)
  /-- `console.warn` in the `HTTPClient` constructor when no `AuthManager`
  is supplied: `Warning: You are using HTTPClient without an AuthManager
  for base URL <baseUrl>. ...`. -/
  | warnNoAuth (baseUrl : String)
  /-- `console.warn` in `checkSecurity`: `Using bearer tokens with cookies
  is recommended for added security.`. -/
  | warnBearerCookieAdvice
  /-- `console.info` in `AuthManager.applyAuth`: `Using secure cookies for
  authentication.`. -/
  | infoSecureCookieAuth
deriving DecidableEq, Repr

/-- Rendered message of the two `handleContentType` warnings (used to state
that the fallback warning names the unmatched type). -/
def contentWarnMsg : LogEvent → Option String
  | .warnNoContentType => some "No Content-Type header found in response"
  | .warnUnhandledContentType ct => some ("Unhandled content type: " ++ ct)
  | _ => none

/-! ## StatusPolicy: `handleStatusCode`

Both variants contain the same `switch (statusCode)` table: the same status
codes, the same severities, and the same default arm.  They differ in one
respect only: for the standard 4xx/5xx codes the TypeScript variant logs at
error level and then `throw`s `"<code> <reason phrase> - Resource: <url>"`,
while the plain-JavaScript variant logs the same error line and `break`s
(no throw).  `statusTable` records the shared table; the two handlers below
differ exactly in the `clientServerError` arm. -/

/-- Outcome of the status-code handler: fall through to decoding, or throw. -/
inductive StatusOutcome
  | pass
  | fail (msg : String)
deriving DecidableEq, Repr

/-- Classification of one status code by the shared `switch` table. -/
inductive StatusClass
  /-- `console.info` + `break` (informational, success, and 304). -/
  | okInfo
  /-- `console.warn` + `break` (redirect codes). -/
  | redirectWarn
  /-- `console.error` arm for a standard 4xx/5xx code; the payload is the
  reason phrase used in the thrown message of the TypeScript variant. -/
  | clientServerError (phrase : String)
  /-- The `default` arm. -/
  | unhandled
deriving DecidableEq, Repr

/-- The shared status-code table of `handleStatusCode` (both variants). -/
def statusTable (code : Nat) : StatusClass :=
  match code with
  | 100 | 101 | 102 | 103 => .okInfo
  | 200 | 201 | 202 | 203 | 204 | 205 | 206 | 207 | 208 | 226 => .okInfo
  | 300 | 301 | 302 | 303 | 305 | 307 | 308 => .redirectWarn
  | 304 => .okInfo
  | 400 => .clientServerError "Bad Request"
  | 401 => .clientServerError "Unauthorized"
  | 402 => .clientServerError "Payment Required"
  | 403 => .clientServerError "Forbidden"
  | 404 => .clientServerError "Not Found"
  | 405 => .clientServerError "Method Not Allowed"
  | 406 => .clientServerError "Not Acceptable"
  | 407 => .clientServerError "Proxy Authentication Required"
  | 408 => .clientServerError "Request Timeout"
  | 409 => .clientServerError "Conflict"
  | 410 => .clientServerError "Gone"
  | 411 => .clientServerError "Length Required"
  | 412 => .clientServerError "Precondition Failed"
  | 413 => .clientServerError "Payload Too Large"
  | 414 => .clientServerError "URI Too Long"
  | 415 => .clientServerError "Unsupported Media Type"
  | 416 => .clientServerError "Range Not Satisfiable"
  | 417 => .clientServerError "Expectation Failed"
  | 418 => .clientServerError "I\x27m a teapot"
  | 421 => .clientServerError "Misdirected Request"
  | 422 => .clientServerError "Unprocessable Entity"
  | 423 => .clientServerError "Locked"
  | 424 => .clientServerError "Failed Dependency"
  | 425 => .clientServerError "Too Early"
  | 426 => .clientServerError "Upgrade Required"
  | 428 => .clientServerError "Precondition Required"
  | 429 => .clientServerError "Too Many Requests"
  | 431 => .clientServerError "Request Header Fields Too Large"
  | 451 => .clientServerError "Unavailable For Legal Reasons"
  | 500 => .clientServerError "Internal Server Error"
  | 501 => .clientServerError "Not Implemented"
  | 502 => .clientServerError "Bad Gateway"
  | 503 => .clientServerError "Service Unavailable"
  | 504 => .clientServerError "Gateway Timeout"
  | 505 => .clientServerError "HTTP Version Not Supported"
  | 506 => .clientServerError "Variant Also Negotiates"
  | 507 => .clientServerError "Insufficient Storage"
  | 508 => .clientServerError "Loop Detected"
  | 510 => .clientServerError "Not Extended"
  | 511 => .clientServerError "Network Authentication Required"
  | _ => .unhandled

/-- `handleStatusCode` of the TypeScript variant: for standard 4xx/5xx codes
it logs at error level and throws `"<code> <phrase> - Resource: <url>"`. -/
def handleStatusCodeTS (code : Nat) (url statusText : String) :
    List LogEvent × StatusOutcome :=
  match statusTable code with
  | .okInfo => ([.statusLog .info code url], .pass)
  | .redirectWarn => ([.statusLog .warn code url], .pass)
  | .clientServerError phrase =>
      ([.statusLog .error code url],
        .fail (toString code ++ " " ++ phrase ++ " - Resource: " ++ url))
  | .unhandled =>
      ([.warnUnhandledStatus code statusText url],
        .fail ("Unhandled status code: " ++ toString code ++ " - Resource: " ++ url))

/-- `handleStatusCode` of the plain-JavaScript variant: for standard 4xx/5xx
codes it logs the same error line but `break`s — only the `default` arm
throws. -/
def handleStatusCodeJS (code : Nat) (url statusText : String) :
    List LogEvent × StatusOutcome :=
  match statusTable code with
  | .okInfo => ([.statusLog .info code url], .pass)
  | .redirectWarn => ([.statusLog .warn code url], .pass)
  | .clientServerError _ => ([.statusLog .error code url], .pass)
  | .unhandled =>
      ([.warnUnhandledStatus code statusText url],
        .fail ("Unhandled status code: " ++ toString code ++ " - Resource: " ++ url))

/-! ## HeaderBag accessor: `getHeader` / `setHeader`

`HeadersInit` values are dispatched by `instanceof Headers`,
`Array.isArray` and `typeof headers === 'object'` chains.  `HeadersVal`
covers the three representations plus the `null` / `undefined` / primitive
arguments that those chains treat differently. -/

/-- A JavaScript `HeadersInit` argument (or a non-headers value passed at
the untyped surface).  `native` models a `Headers` object (a list of
name/value pairs with case-insensitive access), `arr` an array of
`[name, value]` pairs, `obj` a plain object in insertion order. -/
inductive HeadersVal
  | native (pairs : List (String × String))
  | arr (pairs : List (String × String))
  | obj (pairs : List (String × String))
  | jsNull
  | undef
  | primitive
deriving DecidableEq, Repr

/-- Replace the value of the first case-insensitive match of `key`, keeping
the stored name; append `(key, value)` when there is no match.  This is the
`findIndex` + `headers[index][1] = value` / `push` logic of `setHeader` on
the array representation, and models `Headers.set` on the native one. -/
def setPairCI (key value : String) : List (String × String) → List (String × String)
  | [] => [(key, value)]
  | (k, v) :: rest =>
    if strLower k = strLower key then (k, value) :: rest
    else (k, v) :: setPairCI key value rest

/-- JavaScript property assignment `obj[key] = value` on a plain object:
replace the binding whose key is exactly `key`, else append it. -/
def setPairExact (key value : String) : List (String × String) → List (String × String)
  | [] => [(key, value)]
  | (k, v) :: rest =>
    if k = key then (k, value) :: rest
    else (k, v) :: setPairExact key value rest

/-- First case-insensitive match of `key` (the `find` call of `getHeader`). -/
def findPairCI (key : String) (pairs : List (String × String)) : Option (String × String) :=
  pairs.find? fun kv => decide (strLower kv.1 = strLower key)

/-- `getHeader` of the plain-JavaScript variant (`httpClient.js`).  The
plain-object branch searches `Object.keys` case-insensitively and then
guards on the truthiness of the found key (`headerKey ? headers[headerKey]
: undefined`), so an empty-string key yields `undefined`; the final
`typeof headers === 'object' && headers !== null` guard makes the function
total, returning `undefined` for `null`, `undefined` and primitives. -/
def getHeaderJS (headers : HeadersVal) (key : String) : Option String :=
  match headers with
  | .native pairs => (findPairCI key pairs).map fun kv => kv.2
  | .arr pairs => (findPairCI key pairs).map fun kv => kv.2
  | .obj pairs =>
    match findPairCI key pairs with
    | some kv => if kv.1 = "" then none else some kv.2
    | none => none
  | .jsNull => none
  | .undef => none
  | .primitive => none

/-- `getHeader` of the TypeScript variant.  Its plain-object branch is the
direct property read `headers[key]` (case-SENSITIVE), and its guard is only
`typeof headers === 'object'`: since `typeof null === 'object'`, a `null`
argument reaches the property read and throws a `TypeError`. -/
def getHeaderTS (headers : HeadersVal) (key : String) : Except String (Option String) :=
  match headers with
  | .native pairs => .ok ((findPairCI key pairs).map fun kv => kv.2)
  | .arr pairs => .ok ((findPairCI key pairs).map fun kv => kv.2)
  | .obj pairs => .ok ((pairs.find? fun kv => decide (kv.1 = key)).map fun kv => kv.2)
  | .jsNull => .error "TypeError: Cannot read properties of null"
  | .undef => .ok none
  | .primitive => .ok none

/-- `setHeader` of the plain-JavaScript variant (total; its object branch is
guarded by `headers !== null`). -/
def setHeaderJS (headers : HeadersVal) (key value : String) : HeadersVal :=
  match headers with
  | .native pairs => .native (setPairCI key value pairs)
  | .arr pairs => .arr (setPairCI key value pairs)
  | .obj pairs => .obj (setPairExact key value pairs)
  | .jsNull => .jsNull
  | .undef => .undef
  | .primitive => .primitive

/-- `setHeader` of the TypeScript variant; like `getHeaderTS`, a `null`
argument reaches `headers[key] = value` and throws. -/
def setHeaderTS (headers : HeadersVal) (key value : String) : Except String HeadersVal :=
  match headers with
  | .native pairs => .ok (.native (setPairCI key value pairs))
  | .arr pairs => .ok (.arr (setPairCI key value pairs))
  | .obj pairs => .ok (.obj (setPairExact key value pairs))
  | .jsNull => .error "TypeError: Cannot set properties of null"
  | .undef => .ok .undef
  | .primitive => .ok .primitive

/-! ## ResponseDecoder: `handleContentType`

Both variants classify the response by substring containment on the
`Content-Type` header, with identical groups in identical order (the only
textual difference is the position of `application/rtf` inside the blob
group, which does not change the classification).  The body readers
(`response.json()`, `.text()`, ...) are the transport's lazy decoding
capabilities; the result records which one is invoked. -/

/-- Which decoding capability of the response object is invoked. -/
inductive ContentKind
  | json
  | text
  | xml
  | formData
  | urlencoded
  | arrayBuffer
  | blob
deriving DecidableEq, Repr

/-- Content-Type substrings of the text group (case arm 3 of the spec). -/
def textTypes : List String :=
  ["text/plain", "text/html", "text/csv", "text/markdown",
   "application/x-yaml", "text/yaml"]

/-- Content-Type substrings of the blob group (documents, images, audio,
video, archives, RTF). -/
def blobTypes : List String :=
  ["application/pdf", "application/rtf", "application/msword",
   "application/vnd.openxmlformats-officedocument.wordprocessingml.document",
   "application/vnd.ms-excel",
   "application/vnd.openxmlformats-officedocument.spreadsheetml.sheet",
   "application/vnd.ms-powerpoint",
   "application/vnd.openxmlformats-officedocument.presentationml.presentation",
   "image/png", "image/jpeg", "image/gif", "image/webp", "image/bmp",
   "image/svg+xml",
   "audio/mpeg", "audio/wav", "audio/ogg", "audio/aac", "audio/flac",
   "audio/webm",
   "video/mp4", "video/webm", "video/ogg", "video/avi", "video/mpeg",
   "video/quicktime",
   "application/zip", "application/x-7z-compressed",
   "application/x-rar-compressed", "application/x-tar", "application/gzip"]

/-- `handleContentType` on the `Content-Type` header value (`none` when the
header is absent; the source's `if (!contentType)` also catches the empty
string, which is falsy).  Pure classification: the returned `ContentKind`
names the single body-reading capability invoked, and the list collects the
diagnostic warnings. -/
def handleContentType (contentType : Option String) : List LogEvent × ContentKind :=
  match contentType with
  | none => ([.warnNoContentType], .text)
  | some ct =>
    if ct = "" then ([.warnNoContentType], .text)
    else if strContains ct "application/json" then ([], .json)
    else if textTypes.any (fun t => strContains ct t) then ([], .text)
    else if strContains ct "application/xml" || strContains ct "text/xml" then ([], .xml)
    else if strContains ct "multipart/form-data" then ([], .formData)
    else if strContains ct "application/x-www-form-urlencoded" then ([], .urlencoded)
    else if strContains ct "application/octet-stream" then ([], .arrayBuffer)
    else if blobTypes.any (fun t => strContains ct t) then ([], .blob)
    else ([.warnUnhandledContentType ct], .text)

/-- Every Content-Type substring any arm of `handleContentType` tests for,
in source order.  A value containing none of these reaches the default arm. -/
def recognizedContentTypes : List String :=
  ["application/json"] ++ textTypes ++ ["application/xml", "text/xml",
   "multipart/form-data", "application/x-www-form-urlencoded",
   "application/octet-stream"] ++ blobTypes

/-! ## BodyCodec: `handleBody` / `handleHeaders`

Request bodies are JavaScript values.  The native passthrough kinds
(`FormData`, `URLSearchParams`, `Blob`, `ArrayBuffer`) are opaque to the
codec and are modelled as atoms; strings pass through; every other defined
value is serialized with `JSON.stringify`, modelled on a small JSON value
type. -/

/-- A JSON-serializable JavaScript value (numbers restricted to integers,
which covers every body in scope). -/
inductive JsVal
  | jnull
  | jbool (b : Bool)
  | jnum (n : Int)
  | jstr (s : String)
  | jarr (elems : List JsVal)
  | jobj (fields : List (String × JsVal))

/-- Is the value the JavaScript `null` literal. -/
def JsVal.isNull : JsVal → Bool
  | .jnull => true
  | _ => false

/-- Escaping performed by `JSON.stringify` on string contents (quote and
backslash; the inputs in scope contain no control characters). -/
def jsonEscapeChar (c : Char) : String :=
  if c = '"' then "\\\"" else if c = '\\' then "\\\\" else String.singleton c

/-- Escape a string for inclusion in a JSON document. -/
def jsonEscape (s : String) : String := String.join (s.data.map jsonEscapeChar)

mutual

/-- `JSON.stringify`. -/
def stringify : JsVal → String
  | .jnull => "null"
  | .jbool true => "true"
  | .jbool false => "false"
  | .jnum n => toString n
  | .jstr s => "\"" ++ jsonEscape s ++ "\""
  | .jarr es => "[" ++ stringifyList es ++ "]"
  | .jobj fs => "\x7b" ++ stringifyFields fs ++ "\x7d"

/-- Comma-separated serialization of array elements. -/
def stringifyList : List JsVal → String
  | [] => ""
  | [v] => stringify v
  | v :: rest => stringify v ++ "," ++ stringifyList rest

/-- Comma-separated serialization of object fields. -/
def stringifyFields : List (String × JsVal) → String
  | [] => ""
  | [(k, v)] => "\"" ++ jsonEscape k ++ "\":" ++ stringify v
  | (k, v) :: rest =>
      "\"" ++ jsonEscape k ++ "\":" ++ stringify v ++ "," ++ stringifyFields rest

end

/-- A request body as supplied by the caller.  `json v` is a plain
JavaScript value (object, array, number, boolean); `BodyVal.json .jnull`
denotes the same JavaScript value as `BodyVal.jsNull` and is treated
identically by the functions below. -/
inductive BodyVal
  | undef
  | jsNull
  | str (s : String)
  | formData
  | urlParams
  | blob
  | arrayBuffer
  | json (v : JsVal)

/-- The payload finally handed to `fetch`. -/
inductive TransportPayload
  | str (s : String)
  | formData
  | urlParams
  | blob
  | arrayBuffer
deriving DecidableEq, Repr

/-- The `instanceof FormData || instanceof URLSearchParams || instanceof
Blob || typeof body === 'string' || instanceof ArrayBuffer` test shared by
`handleBody` and `handleHeaders`. -/
def isNativeKind : BodyVal → Bool
  | .str _ => true
  | .formData => true
  | .urlParams => true
  | .blob => true
  | .arrayBuffer => true
  | _ => false

/-- JavaScript truthiness of a body value (`if (body && ...)`). -/
def bodyTruthy : BodyVal → Bool
  | .undef => false
  | .jsNull => false
  | .str s => decide (s ≠ "")
  | .formData => true
  | .urlParams => true
  | .blob => true
  | .arrayBuffer => true
  | .json .jnull => false
  | .json (.jbool b) => b
  | .json (.jnum n) => decide (n ≠ 0)
  | .json (.jstr s) => decide (s ≠ "")
  | .json (.jarr _) => true
  | .json (.jobj _) => true

/-- `handleBody` of the plain-JavaScript variant: no body for GET/HEAD,
native kinds and strings pass through, other defined non-null values are
JSON-serialized, and both `undefined` and `null` yield no body
(`body !== undefined && body !== null`). -/
def handleBodyJS (method : String) (body : BodyVal) : Option TransportPayload :=
  if method = "GET" ∨ method = "HEAD" then none
  else match body with
  | .formData => some .formData
  | .urlParams => some .urlParams
  | .blob => some .blob
  | .arrayBuffer => some .arrayBuffer
  | .str s => some (.str s)
  | .undef => none
  | .jsNull => none
  | .json v => if v.isNull then none else some (.str (stringify v))

/-- `handleBody` of the TypeScript variant: identical except that its guard
is only `body !== undefined`, so a `null` body is JSON-serialized to the
string `"null"`. -/
def handleBodyTS (method : String) (body : BodyVal) : Option TransportPayload :=
  if method = "GET" ∨ method = "HEAD" then none
  else match body with
  | .formData => some .formData
  | .urlParams => some .urlParams
  | .blob => some .blob
  | .arrayBuffer => some .arrayBuffer
  | .str s => some (.str s)
  | .undef => none
  | .jsNull => some (.str (stringify .jnull))
  | .json v => some (.str (stringify v))

/-- The `!this.getHeader(headers, 'Content-Type')` guard of
`handleHeaders`: true when the header is absent or its value is the empty
string (both falsy). -/
def contentTypeUnset (headers : HeadersVal) : Bool :=
  match getHeaderJS headers "Content-Type" with
  | none => true
  | some v => decide (v = "")

/-- `handleHeaders` of the plain-JavaScript variant: injects
`Content-Type: application/json` when the body is truthy, not a native
passthrough kind, and no (truthy) Content-Type is already present. -/
def handleHeadersJS (headers : HeadersVal) (body : BodyVal) : HeadersVal :=
  if bodyTruthy body && !isNativeKind body && contentTypeUnset headers then
    setHeaderJS headers "Content-Type" "application/json"
  else headers

/-- The same guard in the TypeScript variant, built on `getHeaderTS` (which
throws on a `null` argument). -/
def contentTypeUnsetTS (headers : HeadersVal) : Except String Bool :=
  match getHeaderTS headers "Content-Type" with
  | .error e => .error e
  | .ok none => .ok true
  | .ok (some v) => .ok (decide (v = ""))

/-- `handleHeaders` of the TypeScript variant (same logic over the
TypeScript accessors). -/
def handleHeadersTS (headers : HeadersVal) (body : BodyVal) : Except String HeadersVal :=
  if bodyTruthy body && !isNativeKind body then
    match contentTypeUnsetTS headers with
    | .error e => .error e
    | .ok true => setHeaderTS headers "Content-Type" "application/json"
    | .ok false => .ok headers
  else .ok headers

/-! ## AuthManager

The richer variant (`dist`) holds a JWT token plus a secure-cookie
configuration; the simpler variant (the second `AuthManager.ts`) holds only
the token.  `applyAuth` is common up to the cookie branch.  The ambient
`document.cookie` jar is an external collaborator, passed explicitly. -/

/-- State of the richer `AuthManager` (JWT token, secure-cookie flag and
cookie name). -/
structure AuthManager where
  jwtToken : Option String := none
  useSecureCookie : Bool := false
  cookieName : String := "auth_token"
deriving DecidableEq, Repr

/-- State of the simpler `AuthManager` variant (token only). -/
structure AuthManagerSimple where
  jwtToken : Option String := none
deriving DecidableEq, Repr

/-- Split a character list on a separator character. -/
def splitListOn (sep : Char) : List Char → List (List Char)
  | [] => [[]]
  | c :: rest =>
    let r := splitListOn sep rest
    if c = sep then [] :: r
    else match r with
      | [] => [[c]]
      | g :: gs => (c :: g) :: gs

/-- Modelled from the browser `document.cookie` lookup performed by
`AuthManager.getCookie` (a regex match of `(^| )name=([^;]+)`): the first
`name=value` entry of the semicolon-separated jar, ignoring
percent-decoding. -/
def getCookie (jar name : String) : Option String :=
  ((splitListOn ';' jar.data).filterMap fun part =>
    let part := match part with
      | ' ' :: rest => rest
      | p => p
    if isPrefixList (name.data ++ ['=']) part then
      some ⟨part.drop (name.data.length + 1)⟩
    else none).head?

/-- The `else if (this.useSecureCookie)` branch of `applyAuth`: a read-only
cookie lookup for diagnostics; headers are returned unchanged. -/
def AuthManager.applyAuthCookieBranch (am : AuthManager) (jar : String)
    (headers : HeadersVal) : Except String (HeadersVal × List LogEvent) :=
  if am.useSecureCookie then
    match getCookie jar am.cookieName with
    | some _ => .ok (headers, [.infoSecureCookieAuth])
    | none => .ok (headers, [])
  else .ok (headers, [])

/-- `applyAuth` of the richer variant.  With a (truthy) token it writes
`Authorization: Bearer <token>` into the header set: `Headers.set` on the
native representation, `push` (append!) on the array representation, and
property assignment on the plain object; `typeof null === 'object'` makes a
`null` header set throw.  Without a token but with the secure-cookie mode
on, it only performs a diagnostic cookie lookup. -/
def AuthManager.applyAuth (am : AuthManager) (jar : String) (headers : HeadersVal) :
    Except String (HeadersVal × List LogEvent) :=
  match am.jwtToken with
  | some t =>
    if t = "" then am.applyAuthCookieBranch jar headers
    else
      let bearer := "Bearer " ++ t
      match headers with
      | .native ps => .ok (.native (setPairCI "Authorization" bearer ps), [])
      | .arr ps => .ok (.arr (ps ++ [("Authorization", bearer)]), [])
      | .obj ps => .ok (.obj (setPairExact "Authorization" bearer ps), [])
      | .jsNull => .error "TypeError: Cannot set properties of null"
      | .undef => .ok (.undef, [])
      | .primitive => .ok (.primitive, [])
  | none => am.applyAuthCookieBranch jar headers

/-- `applyAuth` of the simpler `AuthManager` variant: the same token branch,
and a no-op otherwise. -/
def AuthManagerSimple.applyAuth (am : AuthManagerSimple) (headers : HeadersVal) :
    Except String HeadersVal :=
  match am.jwtToken with
  | some t =>
    if t = "" then .ok headers
    else
      let bearer := "Bearer " ++ t
      match headers with
      | .native ps => .ok (.native (setPairCI "Authorization" bearer ps))
      | .arr ps => .ok (.arr (ps ++ [("Authorization", bearer)]))
      | .obj ps => .ok (.obj (setPairExact "Authorization" bearer ps))
      | .jsNull => .error "TypeError: Cannot set properties of null"
      | .undef => .ok .undef
      | .primitive => .ok .primitive
  | none => .ok headers

/-! ## SecurityPolicy: `checkSecurity` / `checkCookieSecurity`

Only the TypeScript variant has a security check.  `new URL(baseUrl)
.searchParams` is a browser API; `queryParamNames` models it by extracting
the parameter names of the query string. -/

/-- The fixed sensitive-query-parameter name set. -/
def sensitiveParams : List String := ["api_key", "apikey", "access_token"]

/-- Characters after the first `?`, if any. -/
def afterQuestionMark : List Char → Option (List Char)
  | [] => none
  | c :: rest => if c = '?' then some rest else afterQuestionMark rest

/-- Characters before the first `#`. -/
def beforeHash : List Char → List Char
  | [] => []
  | c :: rest => if c = '#' then [] else c :: beforeHash rest

/-- Modelled from the browser URL API (`new URL(baseUrl).searchParams`):
the names of the query-string parameters of a URL. -/
def queryParamNames (url : String) : List String :=
  match afterQuestionMark url.data with
  | none => []
  | some q =>
    (splitListOn '&' (beforeHash q)).map fun g =>
      ⟨g.takeWhile fun c => !(c == '=')⟩

/-- `checkCookieSecurity`: the raw cookie header must contain the `Secure`,
`HttpOnly` and `SameSite` markers, reported in that fixed order. -/
def checkCookieSecurity (cookie : String) : Except String Unit :=
  if !strContains cookie "Secure" then
    .error "Cookies must be set with the Secure attribute."
  else if !strContains cookie "HttpOnly" then
    .error "Cookies must be set with the HttpOnly attribute."
  else if !strContains cookie "SameSite" then
    .error "Cookies must be set with the SameSite attribute (Lax or Strict)."
  else .ok ()

/-- The `for (const param of sensitiveParams)` loop of `checkSecurity`:
the first sensitive parameter name present in the base URL's query. -/
def firstSensitiveParam (baseUrl : String) : Option String :=
  sensitiveParams.find? fun p => (queryParamNames baseUrl).contains p

/-- `checkSecurity` of the TypeScript variant, rules in source order:
(1) reject a `Basic ` Authorization scheme; (2) reject a sensitive query
parameter in the base URL; (3) reject any non-empty `API-Key` header, then
any non-empty non-`Bearer ` Authorization value (the source re-reads the
Authorization header inside its loop; the value is unchanged); (4) reject a
plaintext `http://` base URL; (5) with a `Bearer ` Authorization, warn if
no Cookie header is present, else validate its attributes.  The first
violated rule wins. -/
def checkSecurity (baseUrl : String) (headers : HeadersVal) :
    Except String (List LogEvent) :=
  match getHeaderTS headers "Authorization" with
  | .error e => .error e
  | .ok authorization =>
    if strStartsWith (authorization.getD "") "Basic " then
      .error "Insecure authentication scheme detected: Basic Auth is not allowed"
    else match firstSensitiveParam baseUrl with
    | some p =>
      .error ("Sensitive information detected in URL query parameters: " ++ p
        ++ " must not be passed in the URL")
    | none =>
      match getHeaderTS headers "API-Key" with
      | .error e => .error e
      | .ok apiKeyVal =>
        if apiKeyVal.getD "" ≠ "" then
          .error "Sensitive information detected in headers: API keys must not be passed in headers directly"
        else if authorization.getD "" ≠ "" && !strStartsWith (authorization.getD "") "Bearer " then
          .error "Sensitive information detected: Only Bearer tokens should be used in Authorization headers"
        else if strStartsWith baseUrl "http://" then
          .error "Insecure protocol detected: Use HTTPS instead of HTTP"
        else if strStartsWith (authorization.getD "") "Bearer " then
          match getHeaderTS headers "Cookie" with
          | .error e => .error e
          | .ok cookieOpt =>
            if cookieOpt.getD "" = "" then .ok [.warnBearerCookieAdvice]
            else match checkCookieSecurity (cookieOpt.getD "") with
              | .error e => .error e
              | .ok _ => .ok []
        else .ok []

/-! ## RequestExecutor: the `request` pipelines

The transport call (`fetch`) is an external collaborator: its response is a
parameter.  A pipeline run yields the emitted log events together with the
operation's outcome (a decoded result, the empty 204 result, the response
headers for HEAD, or the propagated error message). -/

/-- The observable part of a `fetch` response. -/
structure FetchResponse where
  status : Nat
  statusText : String
  url : String
  contentType : Option String
  headers : List (String × String) := []
deriving DecidableEq, Repr

/-- Result of a successful request. -/
inductive RequestOutcome
  /-- The early `return` of the 204 short-circuit (value `undefined`). -/
  | empty
  /-- The result of `handleContentType`, tagged by the decode capability. -/
  | decoded (kind : ContentKind)
deriving DecidableEq, Repr

/-- `request` of the plain-JavaScript variant: build options
(`handleHeaders`, `handleBody`), log the start, run the status handler,
short-circuit a 204 status with an empty result, otherwise decode by
content type; a thrown error is logged in the catch block and re-thrown. -/
def requestJS (baseUrl method endpoint : String) (body : BodyVal)
    (headers : HeadersVal) (resp : FetchResponse) :
    List LogEvent × Except String RequestOutcome :=
  let url := baseUrl ++ endpoint
  let _options := (method, handleHeadersJS headers body, handleBodyJS method body)
  let st := handleStatusCodeJS resp.status resp.url resp.statusText
  match st.2 with
  | .fail msg =>
      (.infoStarting method url :: st.1 ++ [.errorFailed method url], .error msg)
  | .pass =>
      if resp.status = 204 then
        (.infoStarting method url :: st.1, .ok .empty)
      else
        let ct := handleContentType resp.contentType
        (.infoStarting method url :: st.1 ++ ct.1, .ok (.decoded ct.2))

/-- The state of a TypeScript-variant `HTTPClient` instance. -/
structure HTTPClient where
  baseUrl : String
  authManager : Option AuthManager
  hasWarnedAboutNoAuth : Bool
deriving DecidableEq, Repr

/-- The `HTTPClient` constructor of the TypeScript variant: the
`hasWarnedAboutNoAuth` field is initialized to `false`, and when no
`AuthManager` is supplied the constructor immediately emits the one-time
warning and sets the per-instance flag. -/
def HTTPClient.construct (baseUrl : String) (authManager : Option AuthManager) :
    HTTPClient × List LogEvent :=
  match authManager with
  | none =>
      ({ baseUrl := baseUrl, authManager := none, hasWarnedAboutNoAuth := true },
        [.warnNoAuth baseUrl])
  | some am =>
      ({ baseUrl := baseUrl, authManager := some am, hasWarnedAboutNoAuth := false },
        [])

/-- `request` of the TypeScript variant: apply auth when an `AuthManager`
is present, build options (`handleHeaders` mutates the same header set the
later `checkSecurity` call receives; `handleBodyTS` computes the payload of
the options handed to the transport), run the security check, then log the
start, run the status handler and decode (no 204 short-circuit).  Auth and
security errors are raised outside the try block, so they propagate without
the catch-block log. -/
def HTTPClient.request (c : HTTPClient) (method endpoint : String)
    (body : BodyVal) (headers : HeadersVal) (jar : String)
    (resp : FetchResponse) : List LogEvent × Except String RequestOutcome :=
  match (match c.authManager with
         | some am => am.applyAuth jar headers
         | none => .ok (headers, [])) with
  | .error e => ([], .error e)
  | .ok (headers1, authLogs) =>
    match handleHeadersTS headers1 body with
    | .error e => (authLogs, .error e)
    | .ok headers2 =>
      match checkSecurity c.baseUrl headers2 with
      | .error e => (authLogs, .error e)
      | .ok secLogs =>
        match (handleStatusCodeTS resp.status resp.url resp.statusText).2 with
        | .fail msg =>
            (authLogs ++ secLogs
              ++ (.infoStarting method (c.baseUrl ++ endpoint)
                :: (handleStatusCodeTS resp.status resp.url resp.statusText).1)
              ++ [.errorFailed method (c.baseUrl ++ endpoint)], .error msg)
        | .pass =>
            (authLogs ++ secLogs
              ++ (.infoStarting method (c.baseUrl ++ endpoint)
                :: (handleStatusCodeTS resp.status resp.url resp.statusText).1)
              ++ (handleContentType resp.contentType).1,
              .ok (.decoded (handleContentType resp.contentType).2))

/-- Is a log event the constructor's one-time no-auth warning. -/
def isNoAuthWarn : LogEvent → Bool
  | .warnNoAuth _ => true
  | _ => false

/-! ## Claim theorems -/

theorem isPrefixList_self : ∀ l : List Char, isPrefixList l l = true
  | [] => rfl
  | c :: cs => by simp [isPrefixList, isPrefixList_self cs]

theorem isPrefixList_append (p : List Char) : ∀ l m, isPrefixList p l = true →
    isPrefixList p (l ++ m) = true := by
  induction p with
  | nil => intro l m _; rfl
  | cons c cs ih =>
    intro l m h
    cases l with
    | nil => simp [isPrefixList] at h
    | cons a as =>
      simp [isPrefixList] at h ⊢
      exact ⟨h.1, ih as m h.2⟩

theorem containsAux_self (pat : List Char) : containsAux pat pat = true := by
  cases pat with
  | nil => rfl
  | cons c cs => simp [containsAux, isPrefixList_self]

theorem containsAux_append_right (pat : List Char) : ∀ a, containsAux pat (a ++ pat) = true := by
  intro a
  induction a with
  | nil => simpa using containsAux_self pat
  | cons c cs ih => simp [containsAux, ih]

/-- A string always contains its own suffix: `strContains (a ++ b) b`. -/
theorem strContains_append_right (a b : String) : strContains (a ++ b) b = true := by
  have h : (a ++ b).data = a.data ++ b.data := rfl
  simp [strContains, h, containsAux_append_right]

theorem containsAux_append_left (pat : List Char) :
    ∀ a b, containsAux pat a = true → containsAux pat (a ++ b) = true := by
  intro a
  induction a with
  | nil =>
    intro b h
    cases pat with
    | nil => cases b <;> simp [containsAux, isPrefixList]
    | cons p ps => simp [containsAux, isPrefixList] at h
  | cons c cs ih =>
    intro b h
    simp [containsAux] at h ⊢
    rcases h with h | h
    · exact Or.inl (isPrefixList_append _ _ _ h)
    · exact Or.inr (ih b h)

/-- Containment is stable under appending on the right. -/
theorem strContains_append_left (a b pat : String) (h : strContains a pat = true) :
    strContains (a ++ b) pat = true := by
  have hd : (a ++ b).data = a.data ++ b.data := rfl
  simpa [strContains, hd] using containsAux_append_left pat.data a.data b.data h


/-- C1 (amended).  For every standard 4xx/5xx status code, the TypeScript
variant's `handleStatusCode` emits an error-level log and raises an error
whose message is `"<code> <reason phrase> - Resource: <resourceUrl>"`; in
particular, status 404 for resource URL `u` fails with the message
`"404 Not Found - Resource: <u>"`, which contains `404` and `u`.  The
plain-JavaScript variant, however, only emits the error-level log for these
codes and lets the operation proceed (its `switch` arms end in `break`;
only the `default` arm throws), so the original claim's "raises an error"
holds only for the TypeScript variant. -/
theorem statusHandler_error_codes :
    (∀ (code : Nat) (url st phrase : String),
      statusTable code = .clientServerError phrase →
        handleStatusCodeTS code url st =
          ([.statusLog .error code url],
            .fail (toString code ++ " " ++ phrase ++ " - Resource: " ++ url)) ∧
        handleStatusCodeJS code url st = ([.statusLog .error code url], .pass))
    ∧ (∀ u st : String,
        handleStatusCodeTS 404 u st =
          ([.statusLog .error 404 u], .fail ("404 Not Found - Resource: " ++ u)) ∧
        strContains ("404 Not Found - Resource: " ++ u) "404" = true ∧
        strContains ("404 Not Found - Resource: " ++ u) u = true) := by
  constructor
  · intro code url st phrase h
    constructor
    · simp [handleStatusCodeTS, h]
    · simp [handleStatusCodeJS, h]
  · intro u st
    refine ⟨rfl, ?_, strContains_append_right _ _⟩
    exact strContains_append_left "404 Not Found - Resource: " u "404" (by decide)

/-- Witness for `statusHandler_error_codes` at status 404 and resource URL
`https://x/y`. -/
theorem statusHandler_error_codes_witness :
    handleStatusCodeTS 404 "https://x/y" "" =
      ([.statusLog .error 404 "https://x/y"],
        .fail ("404 Not Found - Resource: https://x/y")) ∧
    handleStatusCodeJS 404 "https://x/y" "" =
      ([.statusLog .error 404 "https://x/y"], .pass) :=
  ⟨(statusHandler_error_codes.1 404 "https://x/y" "" "Not Found" rfl).1,
    (statusHandler_error_codes.1 404 "https://x/y" "" "Not Found" rfl).2⟩

/-- C1 counterexample to the claim as stated: the plain-JavaScript
variant's `handleStatusCode` (one of the two status handlers the claim
covers) does NOT fail the operation at status 404 — it emits the
error-level log and then `break`s, so the request proceeds to decoding. -/
theorem statusHandler_js_404_continues :
    handleStatusCodeJS 404 "https://x/y" "" =
      ([.statusLog .error 404 "https://x/y"], .pass) := rfl

/-- C2.  `handleContentType` dispatches solely on the Content-Type value by
substring containment: any value containing `application/json` (parameters
included) selects the structured JSON decode; an absent header decodes as
text with a warning; a value matching none of the recognized types decodes
as text with a single warning whose message contains the unmatched value.
The function is total over all Content-Type values (it is a pure
classification; no arm can throw). -/
theorem contentType_dispatch :
    (∀ ct : String, strContains ct "application/json" = true →
        handleContentType (some ct) = ([], .json))
    ∧ handleContentType none = ([.warnNoContentType], .text)
    ∧ (∀ ct : String,
        recognizedContentTypes.all (fun t => !strContains ct t) = true →
        ∃ e m, handleContentType (some ct) = ([e], .text) ∧
          contentWarnMsg e = some m ∧ strContains m ct = true) := by
  refine ⟨?_, rfl, ?_⟩
  · intro ct h
    have hne : ¬(ct = "") := by
      rintro rfl
      exact absurd h (by decide)
    simp [handleContentType, hne, h]
  · intro ct h
    rw [List.all_eq_true] at h
    have hmem : ∀ t ∈ recognizedContentTypes, strContains ct t = false := by
      intro t ht
      simpa using h t ht
    by_cases hne : ct = ""
    · subst hne
      exact ⟨.warnNoContentType, _, by simp [handleContentType], rfl, by decide⟩
    · have hjson : strContains ct "application/json" = false :=
        hmem _ (by simp [recognizedContentTypes])
      have htextAny : textTypes.any (fun t => strContains ct t) = false := by
        rw [List.any_eq_false]
        intro t ht
        simp only [Bool.not_eq_true]
        exact hmem t (by simp only [recognizedContentTypes, List.mem_append, List.mem_cons]; tauto)
      have hblobAny : blobTypes.any (fun t => strContains ct t) = false := by
        rw [List.any_eq_false]
        intro t ht
        simp only [Bool.not_eq_true]
        exact hmem t (by simp only [recognizedContentTypes, List.mem_append, List.mem_cons]; tauto)
      have hxml : strContains ct "application/xml" = false :=
        hmem _ (by simp [recognizedContentTypes])
      have htxml : strContains ct "text/xml" = false :=
        hmem _ (by simp [recognizedContentTypes])
      have hmp : strContains ct "multipart/form-data" = false :=
        hmem _ (by simp [recognizedContentTypes])
      have hurl : strContains ct "application/x-www-form-urlencoded" = false :=
        hmem _ (by simp [recognizedContentTypes])
      have hoct : strContains ct "application/octet-stream" = false :=
        hmem _ (by simp [recognizedContentTypes])
      refine ⟨.warnUnhandledContentType ct, "Unhandled content type: " ++ ct, ?_, rfl, ?_⟩
      · simp [handleContentType, hne, hjson, htextAny, hblobAny, hxml, htxml, hmp, hurl, hoct]
      · exact strContains_append_right _ _

/-- Witness for `contentType_dispatch`: `application/json; charset=utf-8`
decodes as JSON, and `application/weirdtype` falls back to text with a
warning naming it. -/
theorem contentType_dispatch_witness :
    handleContentType (some "application/json; charset=utf-8") = ([], .json) ∧
    (∃ e m, handleContentType (some "application/weirdtype") = ([e], .text) ∧
      contentWarnMsg e = some m ∧ strContains m "application/weirdtype" = true) :=
  ⟨contentType_dispatch.1 "application/json; charset=utf-8" (by decide),
    contentType_dispatch.2.2 "application/weirdtype" (by decide)⟩

/-- C3.  `checkSecurity` evaluates its rules in a fixed order with the
first violation winning: a `Basic ` Authorization scheme is rejected with
the Basic-auth violation before any other rule is evaluated (for every base
URL, in particular an insecure `http://` one), and a plaintext `http://`
base URL — absent a violation of the earlier rules — is rejected with the
insecure-protocol violation.  The concrete conjuncts instantiate this at
`http://api.example.com`, where both rules are violated and the Basic-auth
violation wins. -/
theorem security_rule_order :
    (∀ (baseUrl : String) (headers : HeadersVal) (v : String),
      getHeaderTS headers "Authorization" = .ok (some v) →
      strStartsWith v "Basic " = true →
      checkSecurity baseUrl headers =
        .error "Insecure authentication scheme detected: Basic Auth is not allowed")
    ∧ (∀ (baseUrl : String) (headers : HeadersVal) (auth apiK : Option String),
        getHeaderTS headers "Authorization" = .ok auth →
        getHeaderTS headers "API-Key" = .ok apiK →
        strStartsWith (auth.getD "") "Basic " = false →
        firstSensitiveParam baseUrl = none →
        apiK.getD "" = "" →
        (auth.getD "" = "" ∨ strStartsWith (auth.getD "") "Bearer " = true) →
        strStartsWith baseUrl "http://" = true →
        checkSecurity baseUrl headers =
          .error "Insecure protocol detected: Use HTTPS instead of HTTP")
    ∧ checkSecurity "http://api.example.com" (.obj [("Authorization", "Basic xyz")]) =
        .error "Insecure authentication scheme detected: Basic Auth is not allowed"
    ∧ checkSecurity "http://api.example.com" (.obj []) =
        .error "Insecure protocol detected: Use HTTPS instead of HTTP" := by
  refine ⟨?_, ?_, rfl, rfl⟩
  · intro baseUrl headers v hA hB
    simp [checkSecurity, hA, hB]
  · intro baseUrl headers auth apiK hA hK h1 h2 h3 h4 h5
    rcases h4 with h4 | h4
    · simp [checkSecurity, hA, hK, h2, h3, h4, h5]
      decide
    · simp [checkSecurity, hA, hK, h1, h2, h3, h4, h5]

/-- Witness for `security_rule_order`: the Basic-auth rule fires on
`Authorization: Basic xyz` even with the insecure base URL
`http://api.example.com`, and the insecure-protocol rule fires on that base
URL with empty headers. -/
theorem security_rule_order_witness :
    checkSecurity "http://api.example.com" (.obj [("Authorization", "Basic xyz")]) =
      .error "Insecure authentication scheme detected: Basic Auth is not allowed" ∧
    checkSecurity "http://api.example.com" (.obj []) =
      .error "Insecure protocol detected: Use HTTPS instead of HTTP" :=
  ⟨security_rule_order.1 "http://api.example.com" (.obj [("Authorization", "Basic xyz")])
      "Basic xyz" rfl (by decide),
    security_rule_order.2.1 "http://api.example.com" (.obj []) none none rfl rfl
      (by decide) rfl rfl (Or.inl rfl) (by decide)⟩

/-- Value read back after a case-insensitive replace-or-append write: the
first case-insensitive match after `setPairCI key v` carries value `v`, for
any query key with the same lower-casing. -/
theorem findPairCI_setPairCI (key qkey v : String) (h : strLower qkey = strLower key) :
    ∀ ps, ((findPairCI qkey (setPairCI key v ps)).map fun kv => kv.2) = some v := by
  intro ps
  induction ps with
  | nil => simp [setPairCI, findPairCI, List.find?, h]
  | cons kv rest ih =>
    obtain ⟨k, w⟩ := kv
    by_cases hk : strLower k = strLower key
    · have hkq : strLower k = strLower qkey := hk.trans h.symm
      simp [setPairCI, hk, findPairCI, List.find?, hkq, h]
    · have hkq : ¬(strLower k = strLower qkey) := fun hh => hk (hh.trans h)
      simpa [setPairCI, hk, findPairCI, List.find?, hkq] using ih

/-- The case-insensitive replace-or-append write is idempotent. -/
theorem setPairCI_idem (key v : String) :
    ∀ ps, setPairCI key v (setPairCI key v ps) = setPairCI key v ps := by
  intro ps
  induction ps with
  | nil => simp [setPairCI]
  | cons kv rest ih =>
    obtain ⟨k, w⟩ := kv
    by_cases hk : strLower k = strLower key
    · simp [setPairCI, hk]
    · simp [setPairCI, hk, ih]

/-- JavaScript property assignment is idempotent. -/
theorem setPairExact_idem (key v : String) :
    ∀ ps, setPairExact key v (setPairExact key v ps) = setPairExact key v ps := by
  intro ps
  induction ps with
  | nil => simp [setPairExact]
  | cons kv rest ih =>
    obtain ⟨k, w⟩ := kv
    by_cases hk : k = key
    · simp [setPairExact, hk]
    · simp [setPairExact, hk, ih]

/-- On the plain-object representation of the JS variant, an exact-key
write followed by a case-insensitive read round-trips, provided no
differently-cased binding of the same name is present. -/
theorem getObj_setExact (key qkey v : String) (hq : strLower qkey = strLower key)
    (hk : ¬(key = "")) :
    ∀ ps, (∀ kv ∈ ps, strLower kv.1 = strLower key → kv.1 = key) →
      getHeaderJS (.obj (setPairExact key v ps)) qkey = some v := by
  intro ps
  induction ps with
  | nil =>
    intro _
    simp [setPairExact, getHeaderJS, findPairCI, List.find?, hq, hk]
  | cons kv rest ih =>
    intro hps
    obtain ⟨k, w⟩ := kv
    by_cases hkk : k = key
    · subst hkk
      have hkq : strLower k = strLower qkey := hq.symm
      simp [setPairExact, getHeaderJS, findPairCI, List.find?, hkq.symm, hk]
    · have hnotci : ¬(strLower k = strLower key) := fun hh =>
        hkk (hps (k, w) (by simp) hh)
      have hkq : ¬(strLower k = strLower qkey) := fun hh => hnotci (hh.trans hq)
      have := ih fun kv hkv hl => hps kv (by simp [hkv]) hl
      simpa [setPairExact, hkk, getHeaderJS, findPairCI, List.find?, hkq] using this

/-- C4 (amended).  `setHeader` followed by `getHeader` round-trips a value
under ASCII case-insensitive key comparison for the pair-list and native
`Headers` representations in both variants (from any initial contents), and
for the plain-object representation in the plain-JavaScript variant
provided no differently-cased `Content-Type` binding is already present.
The TypeScript variant's plain-object branch reads `headers[key]`
case-sensitively, so its object representation does not round-trip across
casings (see the counterexample). -/
theorem header_roundtrip_amended :
    (∀ ps, getHeaderJS (setHeaderJS (.arr ps) "Content-Type" "application/json")
        "content-type" = some "application/json")
    ∧ (∀ ps, getHeaderJS (setHeaderJS (.native ps) "Content-Type" "application/json")
        "content-type" = some "application/json")
    ∧ (∀ ps, setHeaderTS (.arr ps) "Content-Type" "application/json" =
        .ok (.arr (setPairCI "Content-Type" "application/json" ps)) ∧
      getHeaderTS (.arr (setPairCI "Content-Type" "application/json" ps)) "content-type" =
        .ok (some "application/json"))
    ∧ (∀ ps, setHeaderTS (.native ps) "Content-Type" "application/json" =
        .ok (.native (setPairCI "Content-Type" "application/json" ps)) ∧
      getHeaderTS (.native (setPairCI "Content-Type" "application/json" ps)) "content-type" =
        .ok (some "application/json"))
    ∧ (∀ ps, (∀ kv ∈ ps, strLower kv.1 = strLower "Content-Type" → kv.1 = "Content-Type") →
        getHeaderJS (setHeaderJS (.obj ps) "Content-Type" "application/json")
          "content-type" = some "application/json") := by
  have hci : strLower "content-type" = strLower "Content-Type" := by decide
  refine ⟨?_, ?_, ?_, ?_, ?_⟩
  · intro ps
    simpa [setHeaderJS, getHeaderJS] using findPairCI_setPairCI _ _ _ hci ps
  · intro ps
    simpa [setHeaderJS, getHeaderJS] using findPairCI_setPairCI _ _ _ hci ps
  · intro ps
    refine ⟨rfl, ?_⟩
    simpa [getHeaderTS] using findPairCI_setPairCI _ _ _ hci ps
  · intro ps
    refine ⟨rfl, ?_⟩
    simpa [getHeaderTS] using findPairCI_setPairCI _ _ _ hci ps
  · intro ps hps
    simpa [setHeaderJS] using getObj_setExact _ _ _ hci (by decide) ps hps

/-- Witness for `header_roundtrip_amended` on empty initial header sets
(object and pair-list representations of the JS variant). -/
theorem header_roundtrip_amended_witness :
    getHeaderJS (setHeaderJS (.obj []) "Content-Type" "application/json")
      "content-type" = some "application/json" ∧
    getHeaderJS (setHeaderJS (.arr []) "Content-Type" "application/json")
      "content-type" = some "application/json" :=
  ⟨header_roundtrip_amended.2.2.2.2 [] (by intro kv hkv; exact absurd hkv (by simp)),
    header_roundtrip_amended.1 []⟩

/-- C4 counterexample to the claim as stated: in the TypeScript variant's
object representation, `set(h, "Content-Type", "application/json")` followed
by `get(h, "content-type")` yields `undefined`, because `getHeader` reads
`headers[key]` with the exact key. -/
theorem header_roundtrip_ts_obj_fails :
    setHeaderTS (.obj []) "Content-Type" "application/json" =
      .ok (.obj [("Content-Type", "application/json")]) ∧
    getHeaderTS (.obj [("Content-Type", "application/json")]) "content-type" =
      .ok none :=
  ⟨rfl, rfl⟩

/-- C5 (amended).  With a (non-empty) token `t` set, `applyAuth` writes
`Authorization: Bearer <t>` without touching anything else: on the native
`Headers` representation it overwrites any prior Authorization value and is
idempotent; on the plain-object representation it overwrites the
exactly-cased `Authorization` binding and is idempotent; but on the
pair-list representation it `push`es a new pair, leaving any prior
Authorization pair in place — there it neither overwrites nor is
idempotent (see the counterexample). -/
theorem applyAuth_amended (t jar : String) (am : AuthManager)
    (htok : am.jwtToken = some t) (hne : ¬(t = "")) :
    (∀ ps, am.applyAuth jar (.native ps) =
        .ok (.native (setPairCI "Authorization" ("Bearer " ++ t) ps), []) ∧
      ((findPairCI "Authorization" (setPairCI "Authorization" ("Bearer " ++ t) ps)).map
          fun kv => kv.2) = some ("Bearer " ++ t) ∧
      am.applyAuth jar (.native (setPairCI "Authorization" ("Bearer " ++ t) ps)) =
        .ok (.native (setPairCI "Authorization" ("Bearer " ++ t) ps), []))
    ∧ (∀ ps, am.applyAuth jar (.obj ps) =
        .ok (.obj (setPairExact "Authorization" ("Bearer " ++ t) ps), []) ∧
      am.applyAuth jar (.obj (setPairExact "Authorization" ("Bearer " ++ t) ps)) =
        .ok (.obj (setPairExact "Authorization" ("Bearer " ++ t) ps), []))
    ∧ (∀ ps, am.applyAuth jar (.arr ps) =
        .ok (.arr (ps ++ [("Authorization", "Bearer " ++ t)]), [])) := by
  refine ⟨fun ps => ⟨?_, ?_, ?_⟩, fun ps => ⟨?_, ?_⟩, fun ps => ?_⟩
  · simp [AuthManager.applyAuth, htok, hne]
  · exact findPairCI_setPairCI _ _ _ rfl ps
  · simp [AuthManager.applyAuth, htok, hne, setPairCI_idem]
  · simp [AuthManager.applyAuth, htok, hne]
  · simp [AuthManager.applyAuth, htok, hne, setPairExact_idem]
  · simp [AuthManager.applyAuth, htok, hne]

/-- Witness for `applyAuth_amended`: a manager holding token `t` writes
`Authorization: Bearer t` into an empty native header set. -/
theorem applyAuth_amended_witness :
    (AuthManager.mk (some "t") false "auth_token").applyAuth "" (.native []) =
      .ok (.native [("Authorization", "Bearer t")], []) :=
  ((applyAuth_amended "t" "" (AuthManager.mk (some "t") false "auth_token")
    rfl (by decide)).1 []).1

/-- C5 counterexample to the claim as stated: on the pair-list
representation, `applyAuth` appends a second Authorization pair instead of
overwriting the prior one (which `getHeader` still returns), and applying
it twice appends a third pair, so it is not idempotent. -/
theorem applyAuth_list_append_not_idempotent :
    (AuthManager.mk (some "t") false "auth_token").applyAuth ""
        (.arr [("Authorization", "Bearer old")]) =
      .ok (.arr [("Authorization", "Bearer old"), ("Authorization", "Bearer t")], []) ∧
    getHeaderJS (.arr [("Authorization", "Bearer old"), ("Authorization", "Bearer t")])
        "Authorization" = some "Bearer old" ∧
    (AuthManager.mk (some "t") false "auth_token").applyAuth ""
        (.arr [("Authorization", "Bearer old"), ("Authorization", "Bearer t")]) =
      .ok (.arr [("Authorization", "Bearer old"), ("Authorization", "Bearer t"),
        ("Authorization", "Bearer t")], []) ∧
    (HeadersVal.arr [("Authorization", "Bearer old"), ("Authorization", "Bearer t"),
        ("Authorization", "Bearer t")] ≠
      HeadersVal.arr [("Authorization", "Bearer old"), ("Authorization", "Bearer t")]) :=
  ⟨rfl, rfl, rfl, by decide⟩

/-- C7 (amended).  For POST requests in the plain-JavaScript variant: a
plain-object body is serialized to its JSON string (`{a:1}` becomes
`{"a":1}`) and, when the Content-Type guard reads a falsy value (header
absent), `Content-Type: application/json` is injected; a string body passes
through unchanged with Content-Type untouched; and a present NON-EMPTY
Content-Type value is never overwritten.  A Content-Type explicitly set to
the empty string is falsy in the guard and is overwritten (see the
counterexample), which is the one correction to the claim. -/
theorem post_body_preparation :
    handleBodyJS "POST" (.json (.jobj [("a", .jnum 1)])) = some (.str "\x7b\"a\":1\x7d")
    ∧ (∀ v : JsVal, v.isNull = false →
        handleBodyJS "POST" (.json v) = some (.str (stringify v)))
    ∧ (∀ headers, contentTypeUnset headers = true →
        handleHeadersJS headers (.json (.jobj [("a", .jnum 1)])) =
          setHeaderJS headers "Content-Type" "application/json")
    ∧ (∀ s, handleBodyJS "POST" (.str s) = some (.str s))
    ∧ (∀ headers s, handleHeadersJS headers (.str s) = headers)
    ∧ (∀ headers body, contentTypeUnset headers = false →
        handleHeadersJS headers body = headers) := by
  refine ⟨rfl, ?_, ?_, fun s => rfl, ?_, ?_⟩
  · intro v hv
    simp [handleBodyJS, hv]
  · intro headers h
    simp [handleHeadersJS, bodyTruthy, isNativeKind, h]
  · intro headers s
    simp [handleHeadersJS, isNativeKind]
  · intro headers body h
    simp [handleHeadersJS, h]

/-- Witness for `post_body_preparation`: on an empty plain-object header
set (Content-Type unset) a JSON body triggers the default injection. -/
theorem post_body_preparation_witness :
    handleHeadersJS (.obj []) (.json (.jobj [("a", .jnum 1)])) =
      .obj [("Content-Type", "application/json")] :=
  post_body_preparation.2.2.1 (.obj []) rfl

/-- C7 counterexample to the claim as stated: a Content-Type explicitly set
to the empty string is present in the header set but falsy in the guard, so
header preparation overwrites it with `application/json`. -/
theorem contentType_empty_overwritten :
    getHeaderJS (.obj [("Content-Type", "")]) "Content-Type" = some "" ∧
    handleHeadersJS (.obj [("Content-Type", "")]) (.json (.jobj [("a", .jnum 1)])) =
      .obj [("Content-Type", "application/json")] ∧
    (HeadersVal.obj [("Content-Type", "application/json")] ≠
      HeadersVal.obj [("Content-Type", "")]) :=
  ⟨rfl, rfl, by decide⟩

/-- C8.  In the plain-JavaScript variant (the one with the
`if (response.status === 204) return;` short-circuit), every response with
status 204 makes `request` return the empty result immediately after the
status check passes: the emitted logs are exactly the start line and the
204 info line, and `handleContentType` is never invoked (no decoded result,
no decoder diagnostics). -/
theorem request_204_short_circuit :
    ∀ (baseUrl method endpoint : String) (body : BodyVal) (headers : HeadersVal)
      (resp : FetchResponse), resp.status = 204 →
      requestJS baseUrl method endpoint body headers resp =
        ([.infoStarting method (baseUrl ++ endpoint), .statusLog .info 204 resp.url],
          .ok .empty) := by
  intro baseUrl method endpoint body headers resp h
  obtain ⟨st, stx, u, ct, hs⟩ := resp
  simp only [FetchResponse.status] at h
  subst h
  rfl

/-- Witness for `request_204_short_circuit` on a concrete 204 response. -/
theorem request_204_short_circuit_witness :
    requestJS "https://b" "DELETE" "/x" .undef (.obj [])
        ⟨204, "No Content", "https://b/x", none, []⟩ =
      ([.infoStarting "DELETE" "https://b/x", .statusLog .info 204 "https://b/x"],
        .ok .empty) :=
  request_204_short_circuit "https://b" "DELETE" "/x" .undef (.obj [])
    ⟨204, "No Content", "https://b/x", none, []⟩ rfl

/-- C9 (amended).  The plain-JavaScript variant's `getHeader` is total at
the public surface: its guards return `undefined` for `null`, `undefined`
and primitive arguments (and an `Option String` for the three real
representations, by construction).  The TypeScript variant's `getHeader` is
total for every non-`null` argument, but a `null` argument passes its
`typeof headers === 'object'` guard and the property read throws a
`TypeError` (see the counterexample). -/
theorem getHeader_total_amended :
    (∀ key, getHeaderJS .jsNull key = none ∧ getHeaderJS .undef key = none ∧
      getHeaderJS .primitive key = none)
    ∧ (∀ (headers : HeadersVal) (key : String), ¬(headers = .jsNull) →
        ∃ v, getHeaderTS headers key = .ok v) := by
  refine ⟨fun key => ⟨rfl, rfl, rfl⟩, ?_⟩
  intro headers key h
  cases headers with
  | jsNull => exact absurd rfl h
  | native ps => exact ⟨_, rfl⟩
  | arr ps => exact ⟨_, rfl⟩
  | obj ps => exact ⟨_, rfl⟩
  | undef => exact ⟨_, rfl⟩
  | primitive => exact ⟨_, rfl⟩

/-- Witness for `getHeader_total_amended` on a non-null argument. -/
theorem getHeader_total_amended_witness :
    ∃ v, getHeaderTS (.obj []) "X-Test" = .ok v :=
  getHeader_total_amended.2 (.obj []) "X-Test" (by decide)

/-- C9 counterexample to the claim as stated: the TypeScript variant's
`getHeader` throws on a `null` headers argument. -/
theorem getHeaderTS_null_throws :
    getHeaderTS .jsNull "Content-Type" =
      .error "TypeError: Cannot read properties of null" := rfl

/-- C10 (amended).  The two variants' `handleBody` functions agree for
every method and every body EXCEPT a null body: for bodies other than
JavaScript `null` (in either encoding) the results coincide, while for a
null body with a non-GET/non-HEAD method the plain-JavaScript variant sends
no payload (`body !== undefined && body !== null`) and the TypeScript
variant serializes it to the string `"null"` (its guard is only
`body !== undefined`); see the counterexample. -/
theorem handleBody_equiv_amended :
    ∀ (method : String) (body : BodyVal),
      ¬(body = .jsNull) → (∀ v, body = .json v → v.isNull = false) →
      handleBodyJS method body = handleBodyTS method body := by
  intro method body h1 h2
  by_cases hm : method = "GET" ∨ method = "HEAD"
  · simp [handleBodyJS, handleBodyTS, hm]
  · cases body with
    | jsNull => exact absurd rfl h1
    | json v =>
      have hv := h2 v rfl
      simp [handleBodyJS, handleBodyTS, hm, hv]
    | undef => simp [handleBodyJS, handleBodyTS, hm]
    | str s => simp [handleBodyJS, handleBodyTS, hm]
    | formData => simp [handleBodyJS, handleBodyTS, hm]
    | urlParams => simp [handleBodyJS, handleBodyTS, hm]
    | blob => simp [handleBodyJS, handleBodyTS, hm]
    | arrayBuffer => simp [handleBodyJS, handleBodyTS, hm]

/-- Witness for `handleBody_equiv_amended` at a POST with a string body. -/
theorem handleBody_equiv_amended_witness :
    handleBodyJS "POST" (.str "raw") = handleBodyTS "POST" (.str "raw") :=
  handleBody_equiv_amended "POST" (.str "raw")
    (fun h => BodyVal.noConfusion h) (fun _ h => BodyVal.noConfusion h)

/-- C10 counterexample to the claim as stated: at a POST with a null body
the plain-JavaScript variant yields no payload while the TypeScript variant
yields the JSON string `"null"`. -/
theorem handleBody_null_divergence :
    handleBodyJS "POST" .jsNull = none ∧
    handleBodyTS "POST" .jsNull = some (.str "null") ∧
    ((none : Option TransportPayload) ≠ some (.str "null")) :=
  ⟨rfl, rfl, by decide⟩

/-- `applyAuth` never emits the no-auth warning. -/
theorem applyAuth_no_noauth (am : AuthManager) (jar : String) (headers hd : HeadersVal)
    (logs : List LogEvent) (h : am.applyAuth jar headers = .ok (hd, logs)) :
    (logs.countP fun e => isNoAuthWarn e) = 0 := by
  revert h
  unfold AuthManager.applyAuth AuthManager.applyAuthCookieBranch
  repeat' split
  all_goals intro h
  all_goals cases h
  all_goals simp [isNoAuthWarn]

/-- `checkSecurity` never emits the no-auth warning. -/
theorem checkSecurity_no_noauth (baseUrl : String) (headers : HeadersVal)
    (logs : List LogEvent) (h : checkSecurity baseUrl headers = .ok logs) :
    (logs.countP fun e => isNoAuthWarn e) = 0 := by
  revert h
  unfold checkSecurity
  repeat' split
  all_goals intro h
  all_goals cases h
  all_goals simp [isNoAuthWarn]

/-- `handleStatusCode` never emits the no-auth warning. -/
theorem handleStatusCodeTS_no_noauth (code : Nat) (url st : String) :
    ((handleStatusCodeTS code url st).1.countP fun e => isNoAuthWarn e) = 0 := by
  cases h : statusTable code <;> simp [handleStatusCodeTS, h, isNoAuthWarn]

/-- `handleContentType` never emits the no-auth warning. -/
theorem handleContentType_no_noauth (ct : Option String) :
    ((handleContentType ct).1.countP fun e => isNoAuthWarn e) = 0 := by
  unfold handleContentType
  repeat' split
  all_goals simp [isNoAuthWarn]

/-- No step of the TypeScript variant's request pipeline emits the no-auth
warning: it is emitted by the constructor alone. -/
theorem request_no_noauth (c : HTTPClient) (method endpoint : String) (body : BodyVal)
    (headers : HeadersVal) (jar : String) (resp : FetchResponse) :
    ((c.request method endpoint body headers jar resp).1.countP
      fun e => isNoAuthWarn e) = 0 := by
  unfold HTTPClient.request
  rcases hAm : c.authManager with _ | am <;> simp only [hAm]
  case none =>
    split
    · simp
    · split
      · simp
      · rename_i secLogs heqS
        have hsec := checkSecurity_no_noauth _ _ _ heqS
        split
        all_goals
          simp only [List.countP_append, List.countP_cons, List.countP_nil, hsec,
            handleStatusCodeTS_no_noauth, handleContentType_no_noauth]
        all_goals simp [isNoAuthWarn]
  case some =>
    split
    · simp
    · rename_i headers1 authLogs heqA
      have hauth := applyAuth_no_noauth _ _ _ _ _ heqA
      split
      · exact hauth
      · split
        · exact hauth
        · rename_i secLogs heqS
          have hsec := checkSecurity_no_noauth _ _ _ heqS
          split
          all_goals
            simp only [List.countP_append, List.countP_cons, List.countP_nil, hauth, hsec,
              handleStatusCodeTS_no_noauth, handleContentType_no_noauth]
          all_goals simp [isNoAuthWarn]

/-- C6 (amended).  A TypeScript-variant client constructed without an
`AuthManager` emits the no-auth warning exactly once, AT CONSTRUCTION TIME
(not at the first request): the constructor emits it and sets the
per-instance `hasWarnedAboutNoAuth` flag; a client constructed with an
`AuthManager` never emits it; and no request on any client instance ever
emits it again — the warning state is the instance field, not process-wide,
so each constructed instance warns once independently of any other. -/
theorem noauth_warning_at_construction :
    (∀ baseUrl, HTTPClient.construct baseUrl none =
        ({ baseUrl := baseUrl, authManager := none, hasWarnedAboutNoAuth := true },
          [.warnNoAuth baseUrl]) ∧
      (((HTTPClient.construct baseUrl none).2.countP fun e => isNoAuthWarn e) = 1))
    ∧ (∀ baseUrl am,
        ((HTTPClient.construct baseUrl (some am)).2.countP fun e => isNoAuthWarn e) = 0)
    ∧ (∀ (c : HTTPClient) (method endpoint : String) (body : BodyVal)
        (headers : HeadersVal) (jar : String) (resp : FetchResponse),
        ((c.request method endpoint body headers jar resp).1.countP
          fun e => isNoAuthWarn e) = 0) :=
  ⟨fun baseUrl => ⟨rfl, by simp [HTTPClient.construct, isNoAuthWarn]⟩,
    fun _ _ => rfl, request_no_noauth⟩

/-- C6 counterexample to the claim as stated: the no-auth warning is
already emitted by the constructor, before any request is attempted, and a
subsequent (first) request emits no such warning — so it is not "emitted
the first time a request is attempted". -/
theorem noauth_warning_before_any_request :
    (HTTPClient.construct "https://b" none).2 = [.warnNoAuth "https://b"] ∧
    ((HTTPClient.request (HTTPClient.construct "https://b" none).1 "GET" "/x" .undef
        (.obj []) "" ⟨200, "OK", "https://b/x", some "application/json", []⟩).1.countP
      fun e => isNoAuthWarn e) = 0 :=
  ⟨rfl, rfl⟩
